import Mathlib

/-!
Shallow embedding of `src/server.js` (custom-apiserver-metrics): an Express
app with two in-memory resource stores (customers, products), operation
counters, an error counter and a request-duration histogram.

JSON/JS values are modelled by `JVal`; a JS object is an association list
whose lookup takes the *last* binding of a key, so that the object literal
`{id: n, ...body, createdAt: d}` is embedded as
`("id", n) :: body ++ [("createdAt", d)]` with identical lookup semantics
(later entries override earlier ones, as the JS spread does).

Each route handler from `server.js` is embedded as the list of effects it
performs (`handlerEvents`), in program order: store pushes, counter
increments, and the final `res.status(..).json(..)` send.  The timing
middleware (server.js lines 63-74) appends one histogram observation
labelled `(req.method, req.path, res.statusCode)` after the response
finishes.  `stepRequest` folds the whole per-request trace over the state.
-/

/-- JS/JSON values as stored and returned by the server.  Numbers are
modelled as integers (every number the server itself produces is an
integer); `date` models a JS `Date` by its epoch-milliseconds value. -/
inductive JVal : Type where
  | null : JVal
  | bool (b : Bool) : JVal
  | num (n : Int) : JVal
  | str (s : String) : JVal
  | date (t : Int) : JVal
  | arr (elems : List JVal) : JVal
  | obj (fields : List (String × JVal)) : JVal

/-- A JS object: ordered key/value bindings, later bindings override. -/
abbrev Obj := List (String × JVal)

/-- Property lookup `o[k]`: the value of the last binding of `k`
(`none` models JS `undefined`). -/
def objGet (o : Obj) (k : String) : Option JVal :=
  (o.reverse.find? (fun p => p.1 == k)).map (fun p => p.2)

/-- Whether the object has a binding for key `k` (`k in o`). -/
def hasKey (o : Obj) (k : String) : Bool :=
  o.any (fun p => p.1 == k)

/-- Numeric value of a decimal digit character. -/
def digitVal (c : Char) : Nat := c.toNat - '0'.toNat

/-- Value of a hexadecimal digit character, if it is one. -/
def hexDigitVal (c : Char) : Option Nat :=
  if '0' ≤ c ∧ c ≤ '9' then some (c.toNat - '0'.toNat)
  else if 'a' ≤ c ∧ c ≤ 'f' then some (c.toNat - 'a'.toNat + 10)
  else if 'A' ≤ c ∧ c ≤ 'F' then some (c.toNat - 'A'.toNat + 10)
  else none

/-- Accumulate the longest prefix of decimal digits. -/
def takeDecimal : List Char → Nat → Nat × Bool
  | [], acc => (acc, false)
  | c :: cs, acc =>
    if c.isDigit then
      let r := takeDecimal cs (acc * 10 + digitVal c)
      (r.1, true)
    else (acc, false)

/-- Accumulate the longest prefix of hexadecimal digits. -/
def takeHex : List Char → Nat → Nat × Bool
  | [], acc => (acc, false)
  | c :: cs, acc =>
    match hexDigitVal c with
    | some d =>
      let r := takeHex cs (acc * 16 + d)
      (r.1, true)
    | none => (acc, false)

/-- JS `parseInt(s)` (radix unspecified): skip leading whitespace, read an
optional sign, then the longest prefix of digits — hexadecimal after a
`0x`/`0X` prefix, decimal otherwise.  `none` models `NaN` (no digits). -/
def parseIntJS (s : String) : Option Int :=
  let cs := s.toList.dropWhile (fun c =>
    c == ' ' || c == '\t' || c == '\n' || c == '\r')
  let signed : Int × List Char :=
    match cs with
    | '-' :: rest => (-1, rest)
    | '+' :: rest => (1, rest)
    | _ => (1, cs)
  let body := signed.2
  match body with
  | '0' :: x :: rest =>
    if x == 'x' || x == 'X' then
      let r := takeHex rest 0
      if r.2 then some (signed.1 * (r.1 : Int)) else none
    else
      let r := takeDecimal body 0
      if r.2 then some (signed.1 * (r.1 : Int)) else none
  | _ =>
    let r := takeDecimal body 0
    if r.2 then some (signed.1 * (r.1 : Int)) else none

/-- JS strict equality `v === n` between a stored value and the result of
`parseInt` (`none` = `NaN`, which is equal to nothing; a non-number value
is never strictly equal to a number). -/
def strictEqNum (v : Option JVal) (n : Option Int) : Bool :=
  match v, n with
  | some (JVal.num m), some k => m == k
  | _, _ => false

/-- The record built by the POST handlers:
`{ id: newId, ...body, createdAt: new Date() }` (server.js lines 88-92 and
128-132).  Under last-binding-wins lookup this list has exactly the JS
object-literal semantics: a client-supplied `id` in `body` overrides the
server-assigned one, while `createdAt` is always the server's date. -/
def mkRecord (newId : Int) (body : Obj) (now : Int) : Obj :=
  ("id", JVal.num newId) :: body ++ [("createdAt", JVal.date now)]

/-- Full server state: the two stores, the three labelled counter families
and the duration histogram's per-label sample count.  The registry also
holds instruments this model does not track — the default process metrics
(server.js line 12) and the per-request metrics that the
`express-prom-bundle` middleware itself maintains in the same registry
(server.js lines 47-57), which that middleware updates on every request it
wraps.  No theorem below therefore quantifies over all registry
instruments; statements are scoped to the named instruments modelled
here. -/
structure ServerState where
  customers : List Obj
  products : List Obj
  /-- Counter `customer_operations_total` by `operation` label. -/
  customerOps : String → Nat
  /-- Counter `product_operations_total` by `operation` label. -/
  productOps : String → Nat
  /-- Counter `api_error_total` by (route, method) label. -/
  errors : String × String → Nat
  /-- Sample count of `http_request_duration_ms` by (method, route, status code) label. -/
  histCount : String × String × Nat → Nat

/-- The state at process start: empty stores, all series at zero. -/
def initState : ServerState :=
  { customers := []
    products := []
    customerOps := fun _ => 0
    productOps := fun _ => 0
    errors := fun _ => 0
    histCount := fun _ => 0 }

/-- Inbound requests to the routes defined in `server.js`.  The `:id`
routes carry the raw path-parameter string; POST routes carry the parsed
JSON body. -/
inductive Request : Type where
  | getCustomers : Request
  | postCustomers (body : Obj) : Request
  | getCustomerById (idParam : String) : Request
  | getProducts : Request
  | postProducts (body : Obj) : Request
  | getProductById (idParam : String) : Request
  | getRoot : Request

/-- The HTTP method (`req.method`) of a request. -/
def methodOf : Request → String
  | Request.getCustomers => "GET"
  | Request.postCustomers _ => "POST"
  | Request.getCustomerById _ => "GET"
  | Request.getProducts => "GET"
  | Request.postProducts _ => "POST"
  | Request.getProductById _ => "GET"
  | Request.getRoot => "GET"

/-- The URL path (`req.path`) of a request (the concrete path, as used by the timing
middleware's histogram labels). -/
def pathOf : Request → String
  | Request.getCustomers => "/customers"
  | Request.postCustomers _ => "/customers"
  | Request.getCustomerById p => "/customers/" ++ p
  | Request.getProducts => "/products"
  | Request.postProducts _ => "/products"
  | Request.getProductById p => "/products/" ++ p
  | Request.getRoot => "/"

/-- The route label used when a handler increments `api_error_total`
(hard-coded per handler in server.js). -/
def errRouteOf : Request → String
  | Request.getCustomers => "/customers"
  | Request.postCustomers _ => "/customers"
  | Request.getCustomerById _ => "/customers/:id"
  | Request.getProducts => "/products"
  | Request.postProducts _ => "/products"
  | Request.getProductById _ => "/products/:id"
  | Request.getRoot => "/"

/-- One observable effect of handling a request, in program order. -/
inductive Event : Type where
  | pushCustomer (record : Obj) : Event
  | pushProduct (record : Obj) : Event
  | incCustomerOp (op : String) : Event
  | incProductOp (op : String) : Event
  | incError (route method : String) : Event
  | send (status : Nat) (body : JVal) : Event
  | observe (method path : String) (status : Nat) (duration : Int) : Event

/-- The lookup `customers.find(c => c.id === parseInt(req.params.id))`
(server.js line 105). -/
def findById (store : List Obj) (idParam : String) : Option Obj :=
  store.find? (fun c => strictEqNum (objGet c "id") (parseIntJS idParam))

/-- The effect trace of each route handler of `server.js`, in program
order, ending with the `res.status(..).json(..)` send.  `now` is the
wall-clock time during handling (used by `new Date()`).  No handler body
can throw in this model, so the `catch` branches (HTTP 500) are not
reachable. -/
def handlerEvents (s : ServerState) (r : Request) (now : Int) : List Event :=
  match r with
  | Request.getCustomers =>
    [Event.incCustomerOp "get_all",
     Event.send 200 (JVal.arr (s.customers.map JVal.obj))]
  | Request.postCustomers body =>
    let record := mkRecord ((s.customers.length : Int) + 1) body now
    [Event.pushCustomer record,
     Event.incCustomerOp "create",
     Event.send 201 (JVal.obj record)]
  | Request.getCustomerById p =>
    match findById s.customers p with
    | some c =>
      [Event.incCustomerOp "get_by_id", Event.send 200 (JVal.obj c)]
    | none =>
      [Event.incError "/customers/:id" "GET",
       Event.send 404 (JVal.obj [("message", JVal.str "Customer not found")])]
  | Request.getProducts =>
    [Event.incProductOp "get_all",
     Event.send 200 (JVal.arr (s.products.map JVal.obj))]
  | Request.postProducts body =>
    let record := mkRecord ((s.products.length : Int) + 1) body now
    [Event.pushProduct record,
     Event.incProductOp "create",
     Event.send 201 (JVal.obj record)]
  | Request.getProductById p =>
    match findById s.products p with
    | some c =>
      [Event.incProductOp "get_by_id", Event.send 200 (JVal.obj c)]
    | none =>
      [Event.incError "/products/:id" "GET",
       Event.send 404 (JVal.obj [("message", JVal.str "Product not found")])]
  | Request.getRoot =>
    [Event.send 200 (JVal.obj [("message", JVal.str "API Server is running")])]

/-- Apply one effect to the state. -/
def applyEvent (s : ServerState) (e : Event) : ServerState :=
  match e with
  | Event.pushCustomer record => { s with customers := s.customers ++ [record] }
  | Event.pushProduct record => { s with products := s.products ++ [record] }
  | Event.incCustomerOp op =>
    { s with customerOps := fun o =>
        if o = op then s.customerOps o + 1 else s.customerOps o }
  | Event.incProductOp op =>
    { s with productOps := fun o =>
        if o = op then s.productOps o + 1 else s.productOps o }
  | Event.incError route method =>
    { s with errors := fun k =>
        if k = (route, method) then s.errors k + 1 else s.errors k }
  | Event.send _ _ => s
  | Event.observe m p st _ =>
    { s with histCount := fun k =>
        if k = (m, p, st) then s.histCount k + 1 else s.histCount k }

/-- The HTTP status sent in a handler trace (every trace sends exactly
once; the first send wins). -/
def statusOf : List Event → Nat
  | [] => 0
  | Event.send st _ :: _ => st
  | _ :: rest => statusOf rest

/-- The JSON body sent in a handler trace. -/
def bodyOf : List Event → JVal
  | [] => JVal.null
  | Event.send _ b :: _ => b
  | _ :: rest => bodyOf rest

/-- The response (status, body) the handler produces on state `s`. -/
def respOf (s : ServerState) (r : Request) (now : Int) : Nat × JVal :=
  let evs := handlerEvents s r now
  (statusOf evs, bodyOf evs)

/-- Process one whole request: run the handler's effects, then the timing
middleware's single `finish` observation, labelled with the request's
method, concrete path, and the status actually sent (server.js lines
63-74). -/
def stepRequest (s : ServerState) (r : Request) (now dur : Int) : ServerState :=
  let evs := handlerEvents s r now
  let st := statusOf evs
  (evs ++ [Event.observe (methodOf r) (pathOf r) st dur]).foldl applyEvent s

/-- Run a list of requests, each tagged with its handling time and its
measured duration. -/
def runSeq (s : ServerState) : List (Request × Int × Int) → ServerState
  | [] => s
  | (r, now, dur) :: rest => runSeq (stepRequest s r now dur) rest

/-- Run a list of requests, also collecting each response. -/
def runSeqOut (s : ServerState) :
    List (Request × Int × Int) → ServerState × List (Nat × JVal)
  | [] => (s, [])
  | (r, now, dur) :: rest =>
    let resp := respOf s r now
    let out := runSeqOut (stepRequest s r now dur) rest
    (out.1, resp :: out.2)

/-- A named property of a response's JSON object body. -/
def respField (resp : Nat × JVal) (k : String) : Option JVal :=
  match resp.2 with
  | JVal.obj o => objGet o k
  | _ => none

/-- The `id` property of a response's JSON object body. -/
def respId (resp : Nat × JVal) : Option JVal :=
  respField resp "id"

/-- The request list for a batch of customer POSTs, each given as
(body, handling time, measured duration). -/
def postCustomerReqs (bs : List (Obj × Int × Int)) : List (Request × Int × Int) :=
  bs.map (fun x => (Request.postCustomers x.1, x.2.1, x.2.2))

/-- The `id` values the server assigns to `n` consecutive creates starting
from a store that already holds `m` records: `m+1, …, m+n`. -/
def idsExpected (m : Nat) : Nat → List (Option JVal)
  | 0 => []
  | n + 1 => some (JVal.num ((m : Int) + 1)) :: idsExpected (m + 1) n

/-- A request whose body leaves `id` assignment to the server (its JSON
body carries no `id` key); non-POST requests are unconstrained. -/
def goodReq : Request → Prop
  | Request.postCustomers b => hasKey b "id" = false
  | Request.postProducts b => hasKey b "id" = false
  | _ => True

/-- The records produced by consecutive creates on top of `m` existing
records, from the given bodies and handling times. -/
def builtFrom (m : Nat) : List (Obj × Int) → List Obj
  | [] => []
  | (b, t) :: rest => mkRecord ((m : Int) + 1) b t :: builtFrom (m + 1) rest

/-- The customer-POST bodies of a request sequence, with handling times. -/
def cpostsOf : List (Request × Int × Int) → List (Obj × Int)
  | [] => []
  | (Request.postCustomers b, now, _) :: rest => (b, now) :: cpostsOf rest
  | _ :: rest => cpostsOf rest

/-- The product-POST bodies of a request sequence, with handling times. -/
def ppostsOf : List (Request × Int × Int) → List (Obj × Int)
  | [] => []
  | (Request.postProducts b, now, _) :: rest => (b, now) :: ppostsOf rest
  | _ :: rest => ppostsOf rest

/-! ### Basic lemmas about the object model -/

/-- A `createdAt` binding is always the one appended by the server. -/
theorem objGet_mkRecord_createdAt (n : Int) (b : Obj) (t : Int) :
    objGet (mkRecord n b t) "createdAt" = some (JVal.date t) := by
  simp [objGet, mkRecord]

/-- If the body has no binding for `k`, `objGet` is `none`. -/
theorem objGet_eq_none_of_hasKey_false (b : Obj) (k : String)
    (h : hasKey b k = false) : objGet b k = none := by
  have h2 : b.reverse.find? (fun p => p.1 == k) = none := by
    rw [List.find?_eq_none]
    intro p hp
    simp only [hasKey, List.any_eq_false] at h
    exact h p (List.mem_reverse.mp hp)
  simp [objGet, h2]

/-- The `id` of a freshly built record: the client body's `id`, when it
supplies one, else the server-assigned id. -/
theorem objGet_mkRecord_id (n : Int) (b : Obj) (t : Int) :
    objGet (mkRecord n b t) "id" =
      some ((objGet b "id").getD (JVal.num n)) := by
  have hrev : (mkRecord n b t).reverse
      = ("createdAt", JVal.date t) :: (b.reverse ++ [("id", JVal.num n)]) := by
    simp [mkRecord]
  rw [objGet, hrev]
  rw [List.find?_cons_of_neg _ (by simp)]
  rw [List.find?_append]
  cases h : b.reverse.find? (fun p => p.1 == "id") with
  | none => simp [objGet, h, Option.or]
  | some p => simp [objGet, h, Option.or]

/-- The `id` of a freshly built record when the client did not supply an
`id` key: the server-assigned one. -/
theorem objGet_mkRecord_id_of_no_id (n : Int) (b : Obj) (t : Int)
    (h : hasKey b "id" = false) :
    objGet (mkRecord n b t) "id" = some (JVal.num n) := by
  rw [objGet_mkRecord_id, objGet_eq_none_of_hasKey_false b "id" h]
  rfl

/-! ### Characterization of one request step, per route -/

theorem step_getRoot (s : ServerState) (now dur : Int) :
    stepRequest s Request.getRoot now dur =
      { s with histCount := fun k =>
          if k = ("GET", "/", 200) then s.histCount k + 1 else s.histCount k } :=
  rfl

theorem step_getCustomers (s : ServerState) (now dur : Int) :
    stepRequest s Request.getCustomers now dur =
      { s with
        customerOps := fun o =>
          if o = "get_all" then s.customerOps o + 1 else s.customerOps o
        histCount := fun k =>
          if k = ("GET", "/customers", 200) then s.histCount k + 1
          else s.histCount k } :=
  rfl

theorem step_postCustomers (s : ServerState) (b : Obj) (now dur : Int) :
    stepRequest s (Request.postCustomers b) now dur =
      { s with
        customers :=
          s.customers ++ [mkRecord ((s.customers.length : Int) + 1) b now]
        customerOps := fun o =>
          if o = "create" then s.customerOps o + 1 else s.customerOps o
        histCount := fun k =>
          if k = ("POST", "/customers", 201) then s.histCount k + 1
          else s.histCount k } :=
  rfl

theorem step_getCustomerById_found (s : ServerState) (p : String)
    (now dur : Int) (c : Obj) (h : findById s.customers p = some c) :
    stepRequest s (Request.getCustomerById p) now dur =
      { s with
        customerOps := fun o =>
          if o = "get_by_id" then s.customerOps o + 1 else s.customerOps o
        histCount := fun k =>
          if k = ("GET", "/customers/" ++ p, 200) then s.histCount k + 1
          else s.histCount k } := by
  simp only [stepRequest, handlerEvents, h]
  rfl

theorem step_getCustomerById_notFound (s : ServerState) (p : String)
    (now dur : Int) (h : findById s.customers p = none) :
    stepRequest s (Request.getCustomerById p) now dur =
      { s with
        errors := fun k =>
          if k = ("/customers/:id", "GET") then s.errors k + 1 else s.errors k
        histCount := fun k =>
          if k = ("GET", "/customers/" ++ p, 404) then s.histCount k + 1
          else s.histCount k } := by
  simp only [stepRequest, handlerEvents, h]
  rfl

theorem step_getProducts (s : ServerState) (now dur : Int) :
    stepRequest s Request.getProducts now dur =
      { s with
        productOps := fun o =>
          if o = "get_all" then s.productOps o + 1 else s.productOps o
        histCount := fun k =>
          if k = ("GET", "/products", 200) then s.histCount k + 1
          else s.histCount k } :=
  rfl

theorem step_postProducts (s : ServerState) (b : Obj) (now dur : Int) :
    stepRequest s (Request.postProducts b) now dur =
      { s with
        products :=
          s.products ++ [mkRecord ((s.products.length : Int) + 1) b now]
        productOps := fun o =>
          if o = "create" then s.productOps o + 1 else s.productOps o
        histCount := fun k =>
          if k = ("POST", "/products", 201) then s.histCount k + 1
          else s.histCount k } :=
  rfl

theorem step_getProductById_found (s : ServerState) (p : String)
    (now dur : Int) (c : Obj) (h : findById s.products p = some c) :
    stepRequest s (Request.getProductById p) now dur =
      { s with
        productOps := fun o =>
          if o = "get_by_id" then s.productOps o + 1 else s.productOps o
        histCount := fun k =>
          if k = ("GET", "/products/" ++ p, 200) then s.histCount k + 1
          else s.histCount k } := by
  simp only [stepRequest, handlerEvents, h]
  rfl

theorem step_getProductById_notFound (s : ServerState) (p : String)
    (now dur : Int) (h : findById s.products p = none) :
    stepRequest s (Request.getProductById p) now dur =
      { s with
        errors := fun k =>
          if k = ("/products/:id", "GET") then s.errors k + 1 else s.errors k
        histCount := fun k =>
          if k = ("GET", "/products/" ++ p, 404) then s.histCount k + 1
          else s.histCount k } := by
  simp only [stepRequest, handlerEvents, h]
  rfl

/-! ### Characterization of responses, per route -/

theorem respOf_postCustomers (s : ServerState) (b : Obj) (now : Int) :
    respOf s (Request.postCustomers b) now =
      (201, JVal.obj (mkRecord ((s.customers.length : Int) + 1) b now)) :=
  rfl

theorem respOf_postProducts (s : ServerState) (b : Obj) (now : Int) :
    respOf s (Request.postProducts b) now =
      (201, JVal.obj (mkRecord ((s.products.length : Int) + 1) b now)) :=
  rfl

theorem respOf_getCustomerById_found (s : ServerState) (p : String)
    (now : Int) (c : Obj) (h : findById s.customers p = some c) :
    respOf s (Request.getCustomerById p) now = (200, JVal.obj c) := by
  simp only [respOf, handlerEvents, h]
  rfl

theorem respOf_getCustomerById_notFound (s : ServerState) (p : String)
    (now : Int) (h : findById s.customers p = none) :
    respOf s (Request.getCustomerById p) now =
      (404, JVal.obj [("message", JVal.str "Customer not found")]) := by
  simp only [respOf, handlerEvents, h]
  rfl

theorem respOf_getProductById_found (s : ServerState) (p : String)
    (now : Int) (c : Obj) (h : findById s.products p = some c) :
    respOf s (Request.getProductById p) now = (200, JVal.obj c) := by
  simp only [respOf, handlerEvents, h]
  rfl

theorem respOf_getProductById_notFound (s : ServerState) (p : String)
    (now : Int) (h : findById s.products p = none) :
    respOf s (Request.getProductById p) now =
      (404, JVal.obj [("message", JVal.str "Product not found")]) := by
  simp only [respOf, handlerEvents, h]
  rfl

/-! ### Claim theorems -/

/-- C3: every processed request bumps the duration histogram's sample
count by exactly 1, exactly at the label tuple (method, path, status code
actually sent) of that request, and at no other label tuple — on success
and error responses alike. -/
theorem C3_histogram_once (s : ServerState) (r : Request) (now dur : Int)
    (k : String × String × Nat) :
    (stepRequest s r now dur).histCount k =
      if k = (methodOf r, pathOf r, (respOf s r now).1)
      then s.histCount k + 1 else s.histCount k := by
  cases r with
  | getCustomers => rfl
  | postCustomers b => rfl
  | getCustomerById p =>
    cases h : findById s.customers p with
    | none =>
      rw [step_getCustomerById_notFound s p now dur h,
        respOf_getCustomerById_notFound s p now h]
      rfl
    | some c =>
      rw [step_getCustomerById_found s p now dur c h,
        respOf_getCustomerById_found s p now c h]
      rfl
  | getProducts => rfl
  | postProducts b => rfl
  | getProductById p =>
    cases h : findById s.products p with
    | none =>
      rw [step_getProductById_notFound s p now dur h,
        respOf_getProductById_notFound s p now h]
      rfl
    | some c =>
      rw [step_getProductById_found s p now dur c h,
        respOf_getProductById_found s p now c h]
      rfl
  | getRoot => rfl

/-- C5: a `POST /customers` (always successful in this model — its handler
body cannot throw) bumps `customer_operations_total{operation="create"}` by
exactly 1, leaves every other operation label of that counter unchanged,
and leaves all of `product_operations_total` unchanged. -/
theorem C5_create_counter (s : ServerState) (b : Obj) (now dur : Int)
    (op : String) :
    (stepRequest s (Request.postCustomers b) now dur).customerOps op =
      (if op = "create" then s.customerOps op + 1 else s.customerOps op) ∧
    (stepRequest s (Request.postCustomers b) now dur).productOps op =
      s.productOps op :=
  ⟨rfl, rfl⟩

/-- C10: customer operations leave the product store and the product
operation counter untouched, and product operations symmetrically leave
the customer store and the customer operation counter untouched. -/
theorem C10_cross_frame (s : ServerState) (now dur : Int) :
    ((stepRequest s Request.getCustomers now dur).products = s.products ∧
      ∀ op, (stepRequest s Request.getCustomers now dur).productOps op =
        s.productOps op) ∧
    (∀ b, (stepRequest s (Request.postCustomers b) now dur).products =
        s.products ∧
      ∀ op, (stepRequest s (Request.postCustomers b) now dur).productOps op =
        s.productOps op) ∧
    (∀ p, (stepRequest s (Request.getCustomerById p) now dur).products =
        s.products ∧
      ∀ op, (stepRequest s (Request.getCustomerById p) now dur).productOps op =
        s.productOps op) ∧
    ((stepRequest s Request.getProducts now dur).customers = s.customers ∧
      ∀ op, (stepRequest s Request.getProducts now dur).customerOps op =
        s.customerOps op) ∧
    (∀ b, (stepRequest s (Request.postProducts b) now dur).customers =
        s.customers ∧
      ∀ op, (stepRequest s (Request.postProducts b) now dur).customerOps op =
        s.customerOps op) ∧
    (∀ p, (stepRequest s (Request.getProductById p) now dur).customers =
        s.customers ∧
      ∀ op, (stepRequest s (Request.getProductById p) now dur).customerOps op =
        s.customerOps op) := by
  refine ⟨⟨rfl, fun op => rfl⟩, fun b => ⟨rfl, fun op => rfl⟩, fun p => ?_,
    ⟨rfl, fun op => rfl⟩, fun b => ⟨rfl, fun op => rfl⟩, fun p => ?_⟩
  · cases h : findById s.customers p with
    | none =>
      rw [step_getCustomerById_notFound s p now dur h]
      exact ⟨rfl, fun op => rfl⟩
    | some c =>
      rw [step_getCustomerById_found s p now dur c h]
      exact ⟨rfl, fun op => rfl⟩
  · cases h : findById s.products p with
    | none =>
      rw [step_getProductById_notFound s p now dur h]
      exact ⟨rfl, fun op => rfl⟩
    | some c =>
      rw [step_getProductById_found s p now dur c h]
      exact ⟨rfl, fun op => rfl⟩

/-- C8: in a created record, `createdAt` is always the server's insertion
timestamp (a client-supplied `createdAt` is overwritten, because the field
is written after the body spread), while `id` is the client body's `id`
when the body supplies one (the spread overrides the server-assigned id,
written before it) and the server-assigned `length+1` otherwise — for both
`POST /customers` and `POST /products`. -/
theorem C8_spread_override (s : ServerState) (b : Obj) (now : Int) :
    (respField (respOf s (Request.postCustomers b) now) "createdAt" =
        some (JVal.date now) ∧
      respField (respOf s (Request.postCustomers b) now) "id" =
        some ((objGet b "id").getD
          (JVal.num ((s.customers.length : Int) + 1)))) ∧
    (respField (respOf s (Request.postProducts b) now) "createdAt" =
        some (JVal.date now) ∧
      respField (respOf s (Request.postProducts b) now) "id" =
        some ((objGet b "id").getD
          (JVal.num ((s.products.length : Int) + 1)))) := by
  refine ⟨⟨?_, ?_⟩, ?_, ?_⟩ <;>
    simp [respField, respOf_postCustomers, respOf_postProducts,
      objGet_mkRecord_createdAt, objGet_mkRecord_id]

/-- A failed parse (JS `NaN`) is strictly equal to nothing. -/
theorem strictEqNum_noneR (v : Option JVal) : strictEqNum v none = false := by
  rcases v with _ | j
  · rfl
  · cases j <;> rfl

/-- The status of `GET /customers/:id` is 200 exactly when some stored
record's `id` is strictly equal to the parsed path parameter, 404
otherwise. -/
theorem status_getCustomerById (s : ServerState) (p : String) (now : Int) :
    (respOf s (Request.getCustomerById p) now).1 =
      if s.customers.any (fun c => strictEqNum (objGet c "id") (parseIntJS p))
      then 200 else 404 := by
  cases h : findById s.customers p with
  | none =>
    have ha : s.customers.any
        (fun c => strictEqNum (objGet c "id") (parseIntJS p)) = false := by
      rw [List.any_eq_false]
      intro x hx
      simp only [findById] at h
      have := List.find?_eq_none.mp h x hx
      simpa using this
    rw [respOf_getCustomerById_notFound s p now h, ha]
    rfl
  | some c =>
    have ha : s.customers.any
        (fun c => strictEqNum (objGet c "id") (parseIntJS p)) = true := by
      simp only [findById] at h
      have hmem := List.mem_of_find?_eq_some h
      have hpred := List.find?_some h
      exact List.any_eq_true.mpr ⟨c, hmem, hpred⟩
    rw [respOf_getCustomerById_found s p now c h, ha]
    rfl

/-- The status of `GET /products/:id`, symmetrically. -/
theorem status_getProductById (s : ServerState) (p : String) (now : Int) :
    (respOf s (Request.getProductById p) now).1 =
      if s.products.any (fun c => strictEqNum (objGet c "id") (parseIntJS p))
      then 200 else 404 := by
  cases h : findById s.products p with
  | none =>
    have ha : s.products.any
        (fun c => strictEqNum (objGet c "id") (parseIntJS p)) = false := by
      rw [List.any_eq_false]
      intro x hx
      simp only [findById] at h
      have := List.find?_eq_none.mp h x hx
      simpa using this
    rw [respOf_getProductById_notFound s p now h, ha]
    rfl
  | some c =>
    have ha : s.products.any
        (fun c => strictEqNum (objGet c "id") (parseIntJS p)) = true := by
      simp only [findById] at h
      have hmem := List.mem_of_find?_eq_some h
      have hpred := List.find?_some h
      exact List.any_eq_true.mpr ⟨c, hmem, hpred⟩
    rw [respOf_getProductById_found s p now c h, ha]
    rfl

/-- C4: lookup by id compares stored ids with the integer parse of the
path parameter under strict equality; the response is 200 on a match and
404 otherwise, a non-numeric (unparsable) parameter always yields 404, and
the status is never 400 — for both resource types. -/
theorem C4_lookup_404 (s : ServerState) (p : String) (now : Int) :
    ((respOf s (Request.getCustomerById p) now).1 =
        if s.customers.any
          (fun c => strictEqNum (objGet c "id") (parseIntJS p))
        then 200 else 404) ∧
    (parseIntJS p = none →
      (respOf s (Request.getCustomerById p) now).1 = 404) ∧
    (respOf s (Request.getCustomerById p) now).1 ≠ 400 ∧
    ((respOf s (Request.getProductById p) now).1 =
        if s.products.any
          (fun c => strictEqNum (objGet c "id") (parseIntJS p))
        then 200 else 404) ∧
    (parseIntJS p = none →
      (respOf s (Request.getProductById p) now).1 = 404) ∧
    (respOf s (Request.getProductById p) now).1 ≠ 400 := by
  have hc := status_getCustomerById s p now
  have hq := status_getProductById s p now
  refine ⟨hc, ?_, ?_, hq, ?_, ?_⟩
  · intro hn
    rw [hc]
    have hfalse : s.customers.any
        (fun c => strictEqNum (objGet c "id") (parseIntJS p)) = false := by
      rw [List.any_eq_false]
      intro x hx
      rw [hn]
      simp [strictEqNum_noneR]
    rw [hfalse]
    rfl
  · rw [hc]
    split <;> simp
  · intro hn
    rw [hq]
    have hfalse : s.products.any
        (fun c => strictEqNum (objGet c "id") (parseIntJS p)) = false := by
      rw [List.any_eq_false]
      intro x hx
      rw [hn]
      simp [strictEqNum_noneR]
    rw [hfalse]
    rfl
  · rw [hq]
    split <;> simp

/-- Witness for C4 at a concrete non-numeric parameter on the initial
state. -/
theorem C4_lookup_404_witness :
    (respOf initState (Request.getCustomerById "abc") 0).1 = 404 :=
  (C4_lookup_404 initState "abc" 0).2.1 rfl

/-- C6: whenever a request is answered with an error status (404; 500 is
unreachable because no handler body can throw in this model), the handler
trace contains an `api_error_total` increment labelled with that request's
route pattern and method at a strictly earlier position than the send of
the error response. -/
theorem C6_error_before_send (s : ServerState) (r : Request) (now : Int)
    (h : (respOf s r now).1 = 404 ∨ (respOf s r now).1 = 500) :
    ∃ (i j : Nat) (b : JVal), i < j ∧
      (handlerEvents s r now)[i]? =
        some (Event.incError (errRouteOf r) (methodOf r)) ∧
      (handlerEvents s r now)[j]? =
        some (Event.send (respOf s r now).1 b) := by
  cases r with
  | getCustomers => simp [respOf, handlerEvents, statusOf] at h
  | postCustomers b => simp [respOf, handlerEvents, statusOf] at h
  | getProducts => simp [respOf, handlerEvents, statusOf] at h
  | postProducts b => simp [respOf, handlerEvents, statusOf] at h
  | getRoot => simp [respOf, handlerEvents, statusOf] at h
  | getCustomerById p =>
    cases hf : findById s.customers p with
    | some c =>
      rw [respOf_getCustomerById_found s p now c hf] at h
      simp at h
    | none =>
      rw [respOf_getCustomerById_notFound s p now hf]
      refine ⟨0, 1, JVal.obj [("message", JVal.str "Customer not found")],
        Nat.zero_lt_one, ?_, ?_⟩
      · simp [handlerEvents, hf, errRouteOf, methodOf]
      · simp [handlerEvents, hf]
  | getProductById p =>
    cases hf : findById s.products p with
    | some c =>
      rw [respOf_getProductById_found s p now c hf] at h
      simp at h
    | none =>
      rw [respOf_getProductById_notFound s p now hf]
      refine ⟨0, 1, JVal.obj [("message", JVal.str "Product not found")],
        Nat.zero_lt_one, ?_, ?_⟩
      · simp [handlerEvents, hf, errRouteOf, methodOf]
      · simp [handlerEvents, hf]

/-- Witness for C6: a lookup miss on the empty initial store. -/
theorem C6_error_before_send_witness :
    ∃ (i j : Nat) (b : JVal), i < j ∧
      (handlerEvents initState (Request.getCustomerById "9") 0)[i]? =
        some (Event.incError (errRouteOf (Request.getCustomerById "9"))
          (methodOf (Request.getCustomerById "9"))) ∧
      (handlerEvents initState (Request.getCustomerById "9") 0)[j]? =
        some (Event.send (respOf initState (Request.getCustomerById "9") 0).1
          b) :=
  C6_error_before_send initState (Request.getCustomerById "9") 0 (Or.inl rfl)

/-- C9 counterexample: a 404 lookup does mutate a metric other than
`api_error_total` — the duration histogram count at the request's label
tuple changes (the timing middleware records the duration of these
route-handled requests on completion, errors included). -/
theorem C9_counterexample :
    (respOf initState (Request.getCustomerById "1") 0).1 = 404 ∧
    (stepRequest initState (Request.getCustomerById "1") 0 0).histCount
        ("GET", "/customers/1", 404) ≠
      initState.histCount ("GET", "/customers/1", 404) := by
  refine ⟨rfl, ?_⟩
  have h1 : (stepRequest initState (Request.getCustomerById "1") 0 0).histCount
      ("GET", "/customers/1", 404) = 1 := rfl
  have h2 : initState.histCount ("GET", "/customers/1", 404) = 0 := rfl
  rw [h1, h2]
  exact one_ne_zero

/-- C9 (amended): a 404 lookup leaves both stores and both operation
counters unchanged and bumps `api_error_total` at exactly the request's
(route, method) label.  The claim's "only metric mutated" exclusivity is
dropped: other instruments in the registry also mutate on such a request —
the custom duration histogram (whose exact mutation the last conjunct
states), and the metrics-bundle middleware's own per-request instruments,
which live outside this model. -/
theorem C9_error_frame (s : ServerState) (p : String) (now dur : Int) :
    (findById s.customers p = none →
      (stepRequest s (Request.getCustomerById p) now dur).customers =
        s.customers ∧
      (stepRequest s (Request.getCustomerById p) now dur).products =
        s.products ∧
      (∀ op, (stepRequest s (Request.getCustomerById p) now dur).customerOps
        op = s.customerOps op) ∧
      (∀ op, (stepRequest s (Request.getCustomerById p) now dur).productOps
        op = s.productOps op) ∧
      (∀ k, (stepRequest s (Request.getCustomerById p) now dur).errors k =
        if k = ("/customers/:id", "GET") then s.errors k + 1
        else s.errors k) ∧
      (∀ k, (stepRequest s (Request.getCustomerById p) now dur).histCount k =
        if k = ("GET", "/customers/" ++ p, 404) then s.histCount k + 1
        else s.histCount k)) ∧
    (findById s.products p = none →
      (stepRequest s (Request.getProductById p) now dur).customers =
        s.customers ∧
      (stepRequest s (Request.getProductById p) now dur).products =
        s.products ∧
      (∀ op, (stepRequest s (Request.getProductById p) now dur).customerOps
        op = s.customerOps op) ∧
      (∀ op, (stepRequest s (Request.getProductById p) now dur).productOps
        op = s.productOps op) ∧
      (∀ k, (stepRequest s (Request.getProductById p) now dur).errors k =
        if k = ("/products/:id", "GET") then s.errors k + 1
        else s.errors k) ∧
      (∀ k, (stepRequest s (Request.getProductById p) now dur).histCount k =
        if k = ("GET", "/products/" ++ p, 404) then s.histCount k + 1
        else s.histCount k)) := by
  constructor
  · intro h
    rw [step_getCustomerById_notFound s p now dur h]
    exact ⟨rfl, rfl, fun op => rfl, fun op => rfl, fun k => rfl, fun k => rfl⟩
  · intro h
    rw [step_getProductById_notFound s p now dur h]
    exact ⟨rfl, rfl, fun op => rfl, fun op => rfl, fun k => rfl, fun k => rfl⟩

/-- Witness for C9 (amended) at a concrete miss on the initial state. -/
theorem C9_error_frame_witness :
    (stepRequest initState (Request.getCustomerById "7") 0 0).customers =
      initState.customers :=
  ((C9_error_frame initState "7" 0 0).1 rfl).1

/-! ### Batch runs: sequential id assignment and store characterization -/

theorem postCustomerReqs_cons (x : Obj × Int × Int)
    (rest : List (Obj × Int × Int)) :
    postCustomerReqs (x :: rest) =
      (Request.postCustomers x.1, x.2.1, x.2.2) :: postCustomerReqs rest :=
  rfl

theorem runSeqOut_cons (s : ServerState) (r : Request) (now dur : Int)
    (rest : List (Request × Int × Int)) :
    runSeqOut s ((r, now, dur) :: rest) =
      ((runSeqOut (stepRequest s r now dur) rest).1,
        respOf s r now :: (runSeqOut (stepRequest s r now dur) rest).2) :=
  rfl

theorem runSeq_cons (s : ServerState) (r : Request) (now dur : Int)
    (rest : List (Request × Int × Int)) :
    runSeq s ((r, now, dur) :: rest) =
      runSeq (stepRequest s r now dur) rest :=
  rfl

theorem idsExpected_succ (m n : Nat) :
    idsExpected m (n + 1) =
      some (JVal.num ((m : Int) + 1)) :: idsExpected (m + 1) n :=
  rfl

theorem idsExpected_eq_range (m n : Nat) :
    idsExpected m n =
      (List.range n).map
        (fun (i : Nat) => some (JVal.num ((m : Int) + (i : Int) + 1))) := by
  induction n generalizing m with
  | zero => rfl
  | succ k ih =>
    rw [idsExpected_succ, List.range_succ_eq_map, ih (m + 1)]
    simp only [List.map_cons, List.map_map]
    congr 1
    apply List.map_congr_left
    intro a ha
    simp only [Function.comp, Nat.succ_eq_add_one]
    congr 2
    push_cast
    ring

/-- Consecutive customer POSTs from any state: every response is 201 and
the returned ids continue the current store length. -/
theorem runPosts_general (s : ServerState) (bs : List (Obj × Int × Int))
    (h : ∀ x ∈ bs, hasKey x.1 "id" = false) :
    (runSeqOut s (postCustomerReqs bs)).2.map Prod.fst =
      List.replicate bs.length 201 ∧
    (runSeqOut s (postCustomerReqs bs)).2.map respId =
      idsExpected s.customers.length bs.length := by
  induction bs generalizing s with
  | nil => simp [postCustomerReqs, runSeqOut, idsExpected]
  | cons x rest ih =>
    obtain ⟨b, now, dur⟩ := x
    have hb : hasKey b "id" = false := h (b, now, dur) (List.mem_cons_self _ _)
    have hrest : ∀ y ∈ rest, hasKey y.1 "id" = false :=
      fun y hy => h y (List.mem_cons_of_mem _ hy)
    have hlen : (stepRequest s (Request.postCustomers b) now dur).customers.length
        = s.customers.length + 1 := by
      rw [step_postCustomers]
      simp
    have ihs := ih (stepRequest s (Request.postCustomers b) now dur) hrest
    rw [hlen] at ihs
    rw [postCustomerReqs_cons, runSeqOut_cons]
    simp only [List.map_cons, List.length_cons]
    constructor
    · rw [List.replicate_succ, ihs.1, respOf_postCustomers]
    · rw [idsExpected_succ, ihs.2, respOf_postCustomers]
      have hid : respId (201,
          JVal.obj (mkRecord ((s.customers.length : Int) + 1) b now)) =
          some (JVal.num ((s.customers.length : Int) + 1)) := by
        simp only [respId, respField]
        exact objGet_mkRecord_id_of_no_id _ _ _ hb
      rw [hid]

/-- C1 counterexample: a single POST whose body carries an `id` key — the
returned id is the client's 42, not the claimed 1, although the request
succeeded (201). -/
theorem C1_counterexample :
    ((runSeqOut initState
        [(Request.postCustomers [("id", JVal.num 42)], 0, 0)]).2.map
      Prod.fst = [201]) ∧
    (runSeqOut initState
        [(Request.postCustomers [("id", JVal.num 42)], 0, 0)]).2.map respId ≠
      [some (JVal.num 1)] := by
  refine ⟨rfl, ?_⟩
  have hval : (runSeqOut initState
      [(Request.postCustomers [("id", JVal.num 42)], 0, 0)]).2.map respId =
      [some (JVal.num 42)] := rfl
  rw [hval]
  simp

/-- C1 (amended): for every sequence of N POST `/customers` requests from
the empty store **whose bodies do not carry an `id` key**, every response
is 201 and the returned ids are exactly 1, …, N in call order. -/
theorem C1_ids_sequential (bs : List (Obj × Int × Int))
    (h : ∀ x ∈ bs, hasKey x.1 "id" = false) :
    (runSeqOut initState (postCustomerReqs bs)).2.map Prod.fst =
      List.replicate bs.length 201 ∧
    (runSeqOut initState (postCustomerReqs bs)).2.map respId =
      (List.range bs.length).map
        (fun (i : Nat) => some (JVal.num ((i : Int) + 1))) := by
  have hg := runPosts_general initState bs h
  refine ⟨hg.1, ?_⟩
  rw [hg.2]
  have h0 : initState.customers.length = 0 := rfl
  rw [h0, idsExpected_eq_range]
  apply List.map_congr_left
  intro i hi
  congr 3
  push_cast
  ring

/-- Witness for C1 (amended) on one id-free body. -/
theorem C1_ids_sequential_witness :
    (runSeqOut initState
        (postCustomerReqs [([("name", JVal.str "A")], 0, 0)])).2.map respId =
      (List.range 1).map (fun (i : Nat) => some (JVal.num ((i : Int) + 1))) :=
  (C1_ids_sequential [([("name", JVal.str "A")], 0, 0)]
    (by intro x hx; simp at hx; rw [hx]; rfl)).2

/-- The customer store after one step: unchanged except that a customer
POST appends one freshly built record. -/
theorem step_customers (s : ServerState) (r : Request) (now dur : Int) :
    (stepRequest s r now dur).customers =
      (match r with
       | Request.postCustomers b =>
         s.customers ++ [mkRecord ((s.customers.length : Int) + 1) b now]
       | _ => s.customers) := by
  cases r with
  | getCustomers => rfl
  | postCustomers b => rfl
  | getCustomerById p =>
    cases h : findById s.customers p with
    | none => rw [step_getCustomerById_notFound s p now dur h]
    | some c => rw [step_getCustomerById_found s p now dur c h]
  | getProducts => rfl
  | postProducts b => rfl
  | getProductById p =>
    cases h : findById s.products p with
    | none => rw [step_getProductById_notFound s p now dur h]
    | some c => rw [step_getProductById_found s p now dur c h]
  | getRoot => rfl

/-- The product store after one step, symmetrically. -/
theorem step_products (s : ServerState) (r : Request) (now dur : Int) :
    (stepRequest s r now dur).products =
      (match r with
       | Request.postProducts b =>
         s.products ++ [mkRecord ((s.products.length : Int) + 1) b now]
       | _ => s.products) := by
  cases r with
  | getCustomers => rfl
  | postCustomers b => rfl
  | getCustomerById p =>
    cases h : findById s.customers p with
    | none => rw [step_getCustomerById_notFound s p now dur h]
    | some c => rw [step_getCustomerById_found s p now dur c h]
  | getProducts => rfl
  | postProducts b => rfl
  | getProductById p =>
    cases h : findById s.products p with
    | none => rw [step_getProductById_notFound s p now dur h]
    | some c => rw [step_getProductById_found s p now dur c h]
  | getRoot => rfl

/-- After any request sequence, each store is its initial contents plus
the records built from that resource's POST bodies, ids continuing from
the initial length. -/
theorem runSeq_stores (s : ServerState) (L : List (Request × Int × Int)) :
    (runSeq s L).customers =
      s.customers ++ builtFrom s.customers.length (cpostsOf L) ∧
    (runSeq s L).products =
      s.products ++ builtFrom s.products.length (ppostsOf L) := by
  induction L generalizing s with
  | nil => simp [runSeq, cpostsOf, ppostsOf, builtFrom]
  | cons x rest ih =>
    obtain ⟨r, now, dur⟩ := x
    rw [runSeq_cons]
    have ihs := ih (stepRequest s r now dur)
    have hc := step_customers s r now dur
    have hp := step_products s r now dur
    cases r with
    | postCustomers b =>
      rw [ihs.1, ihs.2, hc, hp]
      constructor
      · show (s.customers ++ [mkRecord ((s.customers.length : Int) + 1) b now])
            ++ builtFrom (s.customers ++ [_]).length (cpostsOf rest) =
          s.customers ++ builtFrom s.customers.length
            ((b, now) :: cpostsOf rest)
        rw [List.append_assoc]
        simp [builtFrom]
      · simp [ppostsOf]
    | postProducts b =>
      rw [ihs.1, ihs.2, hc, hp]
      constructor
      · simp [cpostsOf]
      · rw [List.append_assoc]
        simp [builtFrom, ppostsOf]
    | getCustomers =>
      rw [ihs.1, ihs.2, hc, hp]
      exact ⟨rfl, rfl⟩
    | getCustomerById p =>
      rw [ihs.1, ihs.2, hc, hp]
      exact ⟨rfl, rfl⟩
    | getProducts =>
      rw [ihs.1, ihs.2, hc, hp]
      exact ⟨rfl, rfl⟩
    | getProductById p =>
      rw [ihs.1, ihs.2, hc, hp]
      exact ⟨rfl, rfl⟩
    | getRoot =>
      rw [ihs.1, ihs.2, hc, hp]
      exact ⟨rfl, rfl⟩

theorem builtFrom_length (m : Nat) (cs : List (Obj × Int)) :
    (builtFrom m cs).length = cs.length := by
  induction cs generalizing m with
  | nil => rfl
  | cons x rest ih =>
    obtain ⟨b, t⟩ := x
    simp [builtFrom, ih]

/-- When no body carries an `id` key, the built records' ids are the
consecutive server-assigned ones. -/
theorem map_objGet_id_builtFrom (m : Nat) (cs : List (Obj × Int))
    (h : ∀ x ∈ cs, hasKey x.1 "id" = false) :
    (builtFrom m cs).map (fun c => objGet c "id") = idsExpected m cs.length := by
  induction cs generalizing m with
  | nil => rfl
  | cons x rest ih =>
    obtain ⟨b, t⟩ := x
    have hb : hasKey b "id" = false := h (b, t) (List.mem_cons_self _ _)
    have hrest : ∀ y ∈ rest, hasKey y.1 "id" = false :=
      fun y hy => h y (List.mem_cons_of_mem _ hy)
    simp only [builtFrom, List.map_cons, List.length_cons]
    rw [idsExpected_succ, objGet_mkRecord_id_of_no_id _ _ _ hb, ih (m + 1) hrest]

/-- The expected ids are strictly increasing as integers. -/
theorem pairwise_lt_idsExpected (m n : Nat) :
    List.Pairwise (fun a b : Option JVal =>
      ∃ x y : Int, a = some (JVal.num x) ∧ b = some (JVal.num y) ∧ x < y)
      (idsExpected m n) := by
  rw [idsExpected_eq_range, List.pairwise_map]
  have hr := List.pairwise_lt_range n
  exact hr.imp (fun hab => ⟨_, _, rfl, rfl, by omega⟩)

/-- The expected ids are pairwise distinct. -/
theorem pairwise_ne_idsExpected (m n : Nat) :
    List.Pairwise (fun a b : Option JVal => a ≠ b) (idsExpected m n) := by
  have h := pairwise_lt_idsExpected m n
  refine h.imp (fun hab => ?_)
  obtain ⟨x, y, hx, hy, hlt⟩ := hab
  rw [hx, hy]
  intro hh
  simp only [Option.some.injEq, JVal.num.injEq] at hh
  omega

theorem cpostsOf_good (L : List (Request × Int × Int))
    (h : ∀ x ∈ L, goodReq x.1) :
    ∀ y ∈ cpostsOf L, hasKey y.1 "id" = false := by
  induction L with
  | nil => intro y hy; simp [cpostsOf] at hy
  | cons x rest ih =>
    obtain ⟨r, now, dur⟩ := x
    have hr : goodReq r := h (r, now, dur) (List.mem_cons_self _ _)
    have hrest : ∀ z ∈ rest, goodReq z.1 :=
      fun z hz => h z (List.mem_cons_of_mem _ hz)
    cases r with
    | postCustomers b =>
      intro y hy
      rw [show cpostsOf ((Request.postCustomers b, now, dur) :: rest) =
          (b, now) :: cpostsOf rest from rfl] at hy
      rcases List.mem_cons.mp hy with h1 | h2
      · rw [h1]; exact hr
      · exact ih hrest y h2
    | getCustomers => exact ih hrest
    | getCustomerById p => exact ih hrest
    | getProducts => exact ih hrest
    | postProducts b => exact ih hrest
    | getProductById p => exact ih hrest
    | getRoot => exact ih hrest

theorem ppostsOf_good (L : List (Request × Int × Int))
    (h : ∀ x ∈ L, goodReq x.1) :
    ∀ y ∈ ppostsOf L, hasKey y.1 "id" = false := by
  induction L with
  | nil => intro y hy; simp [ppostsOf] at hy
  | cons x rest ih =>
    obtain ⟨r, now, dur⟩ := x
    have hr : goodReq r := h (r, now, dur) (List.mem_cons_self _ _)
    have hrest : ∀ z ∈ rest, goodReq z.1 :=
      fun z hz => h z (List.mem_cons_of_mem _ hz)
    cases r with
    | postProducts b =>
      intro y hy
      rw [show ppostsOf ((Request.postProducts b, now, dur) :: rest) =
          (b, now) :: ppostsOf rest from rfl] at hy
      rcases List.mem_cons.mp hy with h1 | h2
      · rw [h1]; exact hr
      · exact ih hrest y h2
    | getCustomers => exact ih hrest
    | getCustomerById p => exact ih hrest
    | getProducts => exact ih hrest
    | postCustomers b => exact ih hrest
    | getProductById p => exact ih hrest
    | getRoot => exact ih hrest

/-- C2 counterexample: a reachable state (two POSTs, the first body
carrying `id: 2`) whose stored ids are `[2, 2]` — neither pairwise unique
nor strictly increasing. -/
theorem C2_counterexample :
    ((runSeq initState
        [(Request.postCustomers [("id", JVal.num 2)], 0, 0),
         (Request.postCustomers [], 1, 0)]).customers.map
      (fun c => objGet c "id") =
      [some (JVal.num 2), some (JVal.num 2)]) ∧
    ¬ List.Pairwise (fun a b : Option JVal => a ≠ b)
      ((runSeq initState
        [(Request.postCustomers [("id", JVal.num 2)], 0, 0),
         (Request.postCustomers [], 1, 0)]).customers.map
        (fun c => objGet c "id")) := by
  have hval : (runSeq initState
      [(Request.postCustomers [("id", JVal.num 2)], 0, 0),
       (Request.postCustomers [], 1, 0)]).customers.map
      (fun c => objGet c "id") =
      [some (JVal.num 2), some (JVal.num 2)] := rfl
  refine ⟨hval, ?_⟩
  rw [hval]
  intro hp
  simp [List.pairwise_cons] at hp

/-- C2 (amended): in every state reached by POST and GET operations
**whose POST bodies carry no `id` key**, the stored ids of each resource
type are exactly the server-assigned `1, …, length` — in particular
pairwise distinct and strictly increasing in insertion order. -/
theorem C2_ids_invariant (L : List (Request × Int × Int))
    (h : ∀ x ∈ L, goodReq x.1) :
    ((runSeq initState L).customers.map (fun c => objGet c "id") =
      idsExpected 0 (runSeq initState L).customers.length) ∧
    List.Pairwise (fun a b : Option JVal =>
      ∃ x y : Int, a = some (JVal.num x) ∧ b = some (JVal.num y) ∧ x < y)
      ((runSeq initState L).customers.map (fun c => objGet c "id")) ∧
    List.Pairwise (fun a b : Option JVal => a ≠ b)
      ((runSeq initState L).customers.map (fun c => objGet c "id")) ∧
    ((runSeq initState L).products.map (fun c => objGet c "id") =
      idsExpected 0 (runSeq initState L).products.length) ∧
    List.Pairwise (fun a b : Option JVal =>
      ∃ x y : Int, a = some (JVal.num x) ∧ b = some (JVal.num y) ∧ x < y)
      ((runSeq initState L).products.map (fun c => objGet c "id")) ∧
    List.Pairwise (fun a b : Option JVal => a ≠ b)
      ((runSeq initState L).products.map (fun c => objGet c "id")) := by
  have hs := runSeq_stores initState L
  have hcust : (runSeq initState L).customers = builtFrom 0 (cpostsOf L) := by
    simpa [initState] using hs.1
  have hprod : (runSeq initState L).products = builtFrom 0 (ppostsOf L) := by
    simpa [initState] using hs.2
  have hmapc := map_objGet_id_builtFrom 0 (cpostsOf L) (cpostsOf_good L h)
  have hmapp := map_objGet_id_builtFrom 0 (ppostsOf L) (ppostsOf_good L h)
  refine ⟨?_, ?_, ?_, ?_, ?_, ?_⟩
  · rw [hcust, hmapc, builtFrom_length]
  · rw [hcust, hmapc]; exact pairwise_lt_idsExpected 0 _
  · rw [hcust, hmapc]; exact pairwise_ne_idsExpected 0 _
  · rw [hprod, hmapp, builtFrom_length]
  · rw [hprod, hmapp]; exact pairwise_lt_idsExpected 0 _
  · rw [hprod, hmapp]; exact pairwise_ne_idsExpected 0 _

/-- Witness for C2 (amended) on a one-POST run. -/
theorem C2_ids_invariant_witness :
    (runSeq initState [(Request.postCustomers [], 0, 0)]).customers.map
        (fun c => objGet c "id") =
      idsExpected 0 (runSeq initState
        [(Request.postCustomers [], 0, 0)]).customers.length :=
  (C2_ids_invariant [(Request.postCustomers [], 0, 0)]
    (by intro x hx; simp at hx; rw [hx]; exact rfl)).1

/-- Lookup in a store of consecutively built, id-free-bodied records finds
exactly the k-th record when the parameter parses to its id. -/
theorem findById_builtFrom (m : Nat) (cs : List (Obj × Int))
    (hids : ∀ x ∈ cs, hasKey x.1 "id" = false) (p : String) (k : Nat)
    (hk : k < cs.length)
    (hp : parseIntJS p = some ((m : Int) + (k : Int) + 1)) :
    ∃ bt : Obj × Int, cs[k]? = some bt ∧
      findById (builtFrom m cs) p =
        some (mkRecord ((m : Int) + (k : Int) + 1) bt.1 bt.2) := by
  induction cs generalizing m k with
  | nil => simp at hk
  | cons x rest ih =>
    obtain ⟨b, t⟩ := x
    have hb : hasKey b "id" = false := hids (b, t) (List.mem_cons_self _ _)
    have hrest : ∀ y ∈ rest, hasKey y.1 "id" = false :=
      fun y hy => hids y (List.mem_cons_of_mem _ hy)
    have hid := objGet_mkRecord_id_of_no_id ((m : Int) + 1) b t hb
    cases k with
    | zero =>
      refine ⟨(b, t), by simp, ?_⟩
      rw [show builtFrom m ((b, t) :: rest) =
          mkRecord ((m : Int) + 1) b t :: builtFrom (m + 1) rest from rfl]
      rw [findById, List.find?_cons_of_pos]
      · norm_num
      · show strictEqNum (objGet (mkRecord ((m : Int) + 1) b t) "id")
          (parseIntJS p) = true
        rw [hid, hp]
        simp [strictEqNum]
    | succ k0 =>
      have hk0 : k0 < rest.length := by simpa using hk
      have hp' : parseIntJS p =
          some (((m + 1 : Nat) : Int) + (k0 : Int) + 1) := by
        rw [hp]
        congr 1
        push_cast
        ring
      obtain ⟨bt, hbt, hfind⟩ := ih (m + 1) hrest k0 hk0 hp'
      refine ⟨bt, by simpa using hbt, ?_⟩
      rw [show builtFrom m ((b, t) :: rest) =
          mkRecord ((m : Int) + 1) b t :: builtFrom (m + 1) rest from rfl]
      rw [findById, List.find?_cons_of_neg]
      · rw [findById] at hfind
        rw [hfind]
        congr 2
        push_cast
        ring
      · show ¬ strictEqNum (objGet (mkRecord ((m : Int) + 1) b t) "id")
          (parseIntJS p) = true
        rw [hid, hp]
        simp only [strictEqNum, beq_iff_eq]
        intro hcontra
        omega

/-- C7 counterexample: the second POST carries `id: 1` (and `name: "B"`)
and succeeds, returning id 1; the subsequent `GET /customers/1` answers
200 but returns the *first* record — the created record's client-supplied
`name` field is missing from the response. -/
theorem C7_counterexample :
    ((runSeqOut initState
        [(Request.postCustomers [], 0, 0),
         (Request.postCustomers [("id", JVal.num 1), ("name", JVal.str "B")],
           1, 0)]).2.map Prod.fst = [201, 201]) ∧
    ((runSeqOut initState
        [(Request.postCustomers [], 0, 0),
         (Request.postCustomers [("id", JVal.num 1), ("name", JVal.str "B")],
           1, 0)]).2.map respId = [some (JVal.num 1), some (JVal.num 1)]) ∧
    ((respOf (runSeq initState
        [(Request.postCustomers [], 0, 0),
         (Request.postCustomers [("id", JVal.num 1), ("name", JVal.str "B")],
           1, 0)]) (Request.getCustomerById "1") 2).1 = 200) ∧
    respField (respOf (runSeq initState
        [(Request.postCustomers [], 0, 0),
         (Request.postCustomers [("id", JVal.num 1), ("name", JVal.str "B")],
           1, 0)]) (Request.getCustomerById "1") 2) "name" ≠
      some (JVal.str "B") := by
  refine ⟨rfl, rfl, rfl, ?_⟩
  have hval : respField (respOf (runSeq initState
      [(Request.postCustomers [], 0, 0),
       (Request.postCustomers [("id", JVal.num 1), ("name", JVal.str "B")],
         1, 0)]) (Request.getCustomerById "1") 2) "name" = none := rfl
  rw [hval]
  simp

/-- C7 (amended): in a run **whose POST bodies carry no `id` key**, a
`GET /customers/:id` whose parameter parses to `k+1` returns 200 with
exactly the record built from the (k+1)-th customer-POST body: all its
client-supplied fields verbatim, plus the server-assigned `id` and
`createdAt`. -/
theorem C7_get_returns_created (L : List (Request × Int × Int))
    (h : ∀ x ∈ L, goodReq x.1) (k : Nat) (p : String) (now : Int)
    (hk : k < (cpostsOf L).length)
    (hp : parseIntJS p = some ((k : Int) + 1)) :
    ∃ bt : Obj × Int, (cpostsOf L)[k]? = some bt ∧
      respOf (runSeq initState L) (Request.getCustomerById p) now =
        (200, JVal.obj (mkRecord ((k : Int) + 1) bt.1 bt.2)) := by
  have hcust : (runSeq initState L).customers = builtFrom 0 (cpostsOf L) := by
    simpa [initState] using (runSeq_stores initState L).1
  have hp' : parseIntJS p = some (((0 : Nat) : Int) + (k : Int) + 1) := by
    rw [hp]
    norm_num
  obtain ⟨bt, hbt, hfind⟩ :=
    findById_builtFrom 0 (cpostsOf L) (cpostsOf_good L h) p k hk hp'
  have hfind' : findById (runSeq initState L).customers p =
      some (mkRecord ((k : Int) + 1) bt.1 bt.2) := by
    rw [hcust, hfind]
    norm_num
  exact ⟨bt, hbt, respOf_getCustomerById_found _ _ _ _ hfind'⟩

/-- Witness for C7 (amended): one POST, then a lookup of id 1. -/
theorem C7_get_returns_created_witness :
    ∃ bt : Obj × Int,
      (cpostsOf [(Request.postCustomers [], 0, 0)])[0]? = some bt ∧
      respOf (runSeq initState [(Request.postCustomers [], 0, 0)])
          (Request.getCustomerById "1") 5 =
        (200, JVal.obj (mkRecord (((0 : Nat) : Int) + 1) bt.1 bt.2)) :=
  C7_get_returns_created [(Request.postCustomers [], 0, 0)]
    (by intro x hx; simp at hx; rw [hx]; exact rfl) 0 "1" 5
    Nat.zero_lt_one rfl
